import Mathlib

/-!
# Verification of the Warmthly translation orchestration layer

Shallow embedding of the engineering core of `warmthly-api`:
the quality scorer (`functions/api/i18n/translation-quality.ts`),
the hybrid provider orchestrator (`functions/api/i18n/translation-service.ts`),
the two-tier translation cache (`functions/api/i18n/translation-cache.ts`),
and the metrics collector (`translation-metrics`, shipped in the repository's
unnamed sources).  Real-number arithmetic of the source is modelled over `ℚ`;
JavaScript string lengths are modelled as Unicode scalar counts.
-/

namespace Warmthly

/-! ## Language metadata interface (`universal-languages.ts`)

The 7,019-entry universal language database is outside the engineering core;
its file is not part of the provided sources, only its callers are. -/

/-- Modelled from the spec: the missing `universal-languages.ts` module is
specified only at its interface boundary (§6: "a language-code validator
(accepts a raw code, returns validity + normalized code + script/RTL
metadata)").  The quality scorer reads exactly two fields of an entry
returned by `getUniversalLanguageInfo`: the expected script tag and the
right-to-left flag, so an entry is modelled as that slice. -/
structure UniversalLanguageInfo where
  script : Option String
  rtl : Bool
deriving DecidableEq, Repr

/-- Modelled from the spec: `getUniversalLanguageInfo` is a pure lookup into
the static language database, so it is passed to the scorer as an abstract
lookup function. -/
def LanguageLookup : Type := String → Option UniversalLanguageInfo

/-! ## Quality scorer (`functions/api/i18n/translation-quality.ts`) -/

/-- Script detection ranges (Unicode blocks) from
`calculateScriptConsistencyScore`, `translation-quality.ts` lines 135-167. -/
def scriptRangesTable (script : String) : Option (List (Nat × Nat)) :=
  if script = "Latn" then some [(0x0000, 0x007F), (0x0080, 0x00FF), (0x0100, 0x017F), (0x0180, 0x024F), (0x1E00, 0x1EFF)]
  else if script = "Cyrl" then some [(0x0400, 0x04FF), (0x0500, 0x052F)]
  else if script = "Arab" then some [(0x0600, 0x06FF), (0x0750, 0x077F), (0x08A0, 0x08FF), (0xFB50, 0xFDFF), (0xFE70, 0xFEFF)]
  else if script = "Deva" then some [(0x0900, 0x097F)]
  else if script = "Beng" then some [(0x0980, 0x09FF)]
  else if script = "Guru" then some [(0x0A00, 0x0A7F)]
  else if script = "Gujr" then some [(0x0A80, 0x0AFF)]
  else if script = "Orya" then some [(0x0B00, 0x0B7F)]
  else if script = "Taml" then some [(0x0B80, 0x0BFF)]
  else if script = "Telu" then some [(0x0C00, 0x0C7F)]
  else if script = "Knda" then some [(0x0C80, 0x0CFF)]
  else if script = "Mlym" then some [(0x0D00, 0x0D7F)]
  else if script = "Sinh" then some [(0x0D80, 0x0DFF)]
  else if script = "Thai" then some [(0x0E00, 0x0E7F)]
  else if script = "Laoo" then some [(0x0E80, 0x0EFF)]
  else if script = "Mymr" then some [(0x1000, 0x109F)]
  else if script = "Khmr" then some [(0x1780, 0x17FF)]
  else if script = "Hans" then some [(0x4E00, 0x9FFF), (0x3400, 0x4DBF)]
  else if script = "Hant" then some [(0x4E00, 0x9FFF), (0x3400, 0x4DBF)]
  else if script = "Jpan" then some [(0x3040, 0x309F), (0x30A0, 0x30FF), (0x4E00, 0x9FFF)]
  else if script = "Hang" then some [(0xAC00, 0xD7AF), (0x1100, 0x11FF)]
  else if script = "Grek" then some [(0x0370, 0x03FF)]
  else if script = "Hebr" then some [(0x0590, 0x05FF)]
  else if script = "Armn" then some [(0x0530, 0x058F)]
  else if script = "Geor" then some [(0x10A0, 0x10FF)]
  else if script = "Ethi" then some [(0x1200, 0x137F)]
  else if script = "Tibt" then some [(0x0F00, 0x0FFF)]
  else if script = "Syrc" then some [(0x0700, 0x074F)]
  else if script = "Bugi" then some [(0x1A00, 0x1A1F)]
  else if script = "Olck" then some [(0x1C50, 0x1C7F)]
  else if script = "Mtei" then some [(0xAAE0, 0xAAFF)]
  else none

/-- Whether a character's code point falls inside one of the given
inclusive Unicode ranges. -/
def charInRanges (ranges : List (Nat × Nat)) (c : Char) : Bool :=
  ranges.any fun r => decide (r.1 ≤ c.toNat) && decide (c.toNat ≤ r.2)

/-- `scriptCharCount` of `calculateScriptConsistencyScore`: number of
characters of the text lying in the expected script's ranges. -/
def scriptCharCount (ranges : List (Nat × Nat)) (text : String) : Nat :=
  (text.data.filter (charInRanges ranges)).length

/-- `scriptRatio` of `calculateScriptConsistencyScore`: fraction of
characters in the expected script's ranges. -/
def scriptRatio (ranges : List (Nat × Nat)) (text : String) : ℚ :=
  (scriptCharCount ranges text : ℚ) / (text.data.length : ℚ)

/-- The threshold mapping from in-script fraction to sub-score
(`translation-quality.ts` lines 203-211). -/
def scriptRatioScore (r : ℚ) : ℚ :=
  if r ≥ 0.8 then 1
  else if r ≥ 0.5 then 0.7
  else if r ≥ 0.3 then 0.4
  else 0.1

/-- `calculateScriptConsistencyScore` (`translation-quality.ts` lines 122-212). -/
def calculateScriptConsistencyScore (lookup : LanguageLookup)
    (translatedText targetLang : String) : ℚ :=
  match lookup targetLang with
  | none => 0.8
  | some langInfo =>
    match langInfo.script with
    | none => 0.8
    | some expectedScript =>
      match scriptRangesTable expectedScript with
      | none => 0.8
      | some ranges =>
        if translatedText.data.length = 0 then 0
        else scriptRatioScore (scriptRatio ranges translatedText)

/-- `calculateLengthRatioScore` (`translation-quality.ts` lines 56-89).
The `sourceLang`/`targetLang` parameters are unused in the source as well. -/
def calculateLengthRatioScore (sourceText translatedText sourceLang targetLang : String) : ℚ :=
  if sourceText.length = 0 then
    (if translatedText.length = 0 then 1 else 0)
  else
    let ratio : ℚ := (translatedText.length : ℚ) / (sourceText.length : ℚ)
    if ratio < 0.3 then max 0 (ratio / 0.3)
    else if ratio > 3 then max 0 (1 - (ratio - 3) / 3)
    else 1

/-- `calculateEncodingScore` (`translation-quality.ts` lines 95-116).
Lean strings are sequences of Unicode scalar values, so the strict UTF-8
round-trip of the source never throws here; only the replacement-character
check and the empty-text check remain observable. -/
def calculateEncodingScore (translatedText : String) : ℚ :=
  if translatedText.length = 0 then 0
  else if translatedText.data.contains '�' then 0.5
  else 1

/-- The RTL character class of `calculateLanguageMatchScore`
(`translation-quality.ts` line 239). -/
def rtlRanges : List (Nat × Nat) :=
  [(0x0590, 0x05FF), (0x0600, 0x06FF), (0x0700, 0x074F), (0x0750, 0x077F),
   (0x08A0, 0x08FF), (0xFB50, 0xFDFF), (0xFE70, 0xFEFF)]

/-- Whether the text contains at least one RTL-script character. -/
def hasRtlChar (text : String) : Bool :=
  text.data.any (charInRanges rtlRanges)

/-- `calculateLanguageMatchScore` (`translation-quality.ts` lines 219-247). -/
def calculateLanguageMatchScore (lookup : LanguageLookup)
    (translatedText targetLang : String) : ℚ :=
  let scriptScore := calculateScriptConsistencyScore lookup translatedText targetLang
  match lookup targetLang with
  | none => 0.8
  | some langInfo =>
    if langInfo.rtl && !hasRtlChar translatedText && decide (translatedText.length > 10) then 0.3
    else scriptScore * 0.9

/-- JavaScript's `String.prototype.trim`: strip whitespace from both ends
(character-list implementation). -/
def jsTrim (s : String) : String :=
  (((s.data.dropWhile Char.isWhitespace).reverse.dropWhile Char.isWhitespace).reverse).asString

/-- JavaScript's `toLowerCase` as far as the error patterns need it:
per-character lowercasing. -/
def jsToLower (s : String) : String :=
  (s.data.map Char.toLower).asString

/-- JavaScript's `startsWith` / a `^...` anchored regex match:
character-list prefix test. -/
def jsStartsWith (s p : String) : Bool :=
  p.data.isPrefixOf s.data

/-- The error/placeholder patterns of `calculateConfidenceScore`
(`translation-quality.ts` lines 270-276); each is a case-insensitive
prefix match. -/
def errorPatterns : List String :=
  ["error", "failed", "translation failed", "unable to translate", "not supported"]

/-- Case-insensitive prefix test against `errorPatterns`. -/
def matchesErrorPattern (text : String) : Bool :=
  errorPatterns.any fun p => jsStartsWith (jsToLower text) p

/-- Helper for `jsSplitWhitespace`: split a character list on maximal
whitespace runs, fuelled by the list length. -/
def splitWsGo : Nat → List Char → List Char → List (List Char)
  | _, [], cur => [cur.reverse]
  | 0, _ :: _, cur => [cur.reverse]
  | Nat.succ fuel, c :: rest, cur =>
    if c.isWhitespace then
      cur.reverse :: splitWsGo fuel (rest.dropWhile Char.isWhitespace) []
    else
      splitWsGo fuel rest (c :: cur)

/-- JavaScript's `text.split(/\s+/)`: tokens between maximal whitespace runs;
a leading (resp. trailing) run contributes a leading (resp. trailing) empty
token, and the empty string splits to `[""]`. -/
def jsSplitWhitespace (text : String) : List String :=
  (splitWsGo text.data.length text.data []).map List.asString

/-- `calculateConfidenceScore` (`translation-quality.ts` lines 253-297).
The JS `Set` size is the number of distinct words, i.e. `List.dedup.length`. -/
def calculateConfidenceScore (sourceText translatedText : String) : ℚ :=
  if (jsTrim translatedText).length = 0 then 0
  else
    let score : ℚ := 1
    let score := if translatedText = sourceText ∧ sourceText.length > 5 then score * 0.3 else score
    let score := if matchesErrorPattern translatedText then score * 0.2 else score
    let score :=
      if translatedText.length > 20 then
        let words := jsSplitWhitespace translatedText
        let repetitionRatio : ℚ := (words.dedup.length : ℚ) / (words.length : ℚ)
        if repetitionRatio < 0.3 then score * 0.5 else score
      else score
    max 0 (min 1 score)

/-- The `metrics` breakdown of a `QualityScore`. -/
structure QualityMetrics where
  lengthRatio : ℚ
  encoding : ℚ
  scriptConsistency : ℚ
  languageMatch : ℚ
  confidence : ℚ
deriving DecidableEq, Repr

/-- `QualityScore` (`translation-quality.ts` lines 18-33). -/
structure QualityScore where
  score : ℚ
  metrics : QualityMetrics
  passes : Bool
  issues : List String
deriving DecidableEq, Repr

/-- `evaluateTranslationQuality` (`translation-quality.ts` lines 303-384).
The caller-side default for `threshold` is `0.5`. -/
def evaluateTranslationQuality (lookup : LanguageLookup)
    (sourceText translatedText sourceLang targetLang : String)
    (threshold : ℚ) : QualityScore :=
  let lengthRatio := calculateLengthRatioScore sourceText translatedText sourceLang targetLang
  let encoding := calculateEncodingScore translatedText
  let scriptConsistency := calculateScriptConsistencyScore lookup translatedText targetLang
  let languageMatch := calculateLanguageMatchScore lookup translatedText targetLang
  let confidence := calculateConfidenceScore sourceText translatedText
  let overallScore :=
    lengthRatio * 0.15 + encoding * 0.20 + scriptConsistency * 0.25 +
      languageMatch * 0.25 + confidence * 0.15
  let issues :=
    (if lengthRatio < 0.5 then ["Length ratio is unusual"] else []) ++
    (if encoding < 0.8 then ["Character encoding issues detected"] else []) ++
    (if scriptConsistency < 0.6 then ["Script consistency is low"] else []) ++
    (if languageMatch < 0.6 then ["Language match is uncertain"] else []) ++
    (if confidence < 0.6 then ["Confidence is low"] else [])
  { score := overallScore
    metrics :=
      { lengthRatio := lengthRatio
        encoding := encoding
        scriptConsistency := scriptConsistency
        languageMatch := languageMatch
        confidence := confidence }
    passes := decide (overallScore ≥ threshold)
    issues := issues }

/-- A candidate passed to `selectBestTranslation`. -/
structure TranslationCandidate where
  text : String
  provider : String
deriving DecidableEq, Repr

/-- The result of `selectBestTranslation`. -/
structure BestTranslation where
  text : String
  provider : String
  score : ℚ
deriving DecidableEq, Repr

/-- The quality score `selectBestTranslation` assigns to a candidate:
`evaluateTranslationQuality({...params, translatedText}).score`. -/
def candidateScore (lookup : LanguageLookup)
    (sourceText sourceLang targetLang : String) (threshold : ℚ)
    (c : TranslationCandidate) : ℚ :=
  (evaluateTranslationQuality lookup sourceText c.text sourceLang targetLang threshold).score

/-- The candidate loop of `selectBestTranslation` (`translation-quality.ts`
lines 411-425): running best and running best score, updated on a strict
improvement only. -/
def selectBestGo (lookup : LanguageLookup)
    (sourceText sourceLang targetLang : String) (threshold : ℚ) :
    List TranslationCandidate → Option BestTranslation → ℚ → Option BestTranslation
  | [], best, _ => best
  | t :: rest, best, bestScore =>
    let qualityScore := candidateScore lookup sourceText sourceLang targetLang threshold t
    if qualityScore > bestScore then
      selectBestGo lookup sourceText sourceLang targetLang threshold rest
        (some { text := t.text, provider := t.provider, score := qualityScore }) qualityScore
    else
      selectBestGo lookup sourceText sourceLang targetLang threshold rest best bestScore

/-- `selectBestTranslation` (`translation-quality.ts` lines 389-428). -/
def selectBestTranslation (lookup : LanguageLookup)
    (translations : List TranslationCandidate)
    (sourceText sourceLang targetLang : String) (threshold : ℚ) :
    Option BestTranslation :=
  if translations.isEmpty then none
  else selectBestGo lookup sourceText sourceLang targetLang threshold translations none (-1)

/-! ## Providers (`functions/api/i18n/translation-service.ts`)

Each provider's network call is modelled at the point where the HTTP
response has been received: the response-handling code after `fetch` is a
pure function of the response's `ok` flag, status, and parsed JSON body. -/

/-- The JSON body of a Hugging Face inference response, as far as the
providers inspect it: an array (of which only the first element's
`translation_text` field is read), an object (of which only
`generated_text` is read; an empty object is `.jobject none`), a bare
string, or anything else.  A `none` field models a missing / non-string
field (JS `undefined`). -/
inductive HFData where
  | jarray (translationTexts : List (Option String))
  | jobject (generatedText : Option String)
  | jstring (s : String)
  | other
deriving DecidableEq, Repr

/-- JavaScript's `field || text` fallback: a missing or empty (falsy)
string field falls back to `text`. -/
def jsOrElse (field : Option String) (text : String) : String :=
  match field with
  | some t => if t = "" then text else t
  | none => text

/-- Response handling of `LibreTranslateProvider.translate`
(`translation-service.ts` lines 119-124): `data.translatedText || text`. -/
def libreTranslateHandleResponse (ok : Bool) (status : Nat)
    (translatedText : Option String) (text : String) : Except String String :=
  if !ok then .error ("LibreTranslate API error: " ++ toString status)
  else .ok (jsOrElse translatedText text)

/-- Response handling of `NLLBProvider.translate`
(`translation-service.ts` lines 196-215). -/
def nllbHandleResponse (ok : Bool) (status : Nat) (data : HFData)
    (text : String) : Except String String :=
  if !ok then
    if status = 503 then .error "Translation model is loading, please retry"
    else .error ("NLLB API error: " ++ toString status)
  else .ok (match data with
    | .jarray (e :: _) => jsOrElse e text
    | .jarray [] => text
    | .jobject g => jsOrElse g text
    | .jstring _ => text
    | .other => text)

/-- Response handling of `OPUSMTProvider.translate`
(`translation-service.ts` lines 525-547); unlike NLLB it also returns a
bare-string body as-is. -/
def opusMtHandleResponse (ok : Bool) (status : Nat) (data : HFData)
    (text : String) : Except String String :=
  if !ok then
    if status = 503 then .error "OPUS-MT model is loading, please retry"
    else .error ("OPUS-MT API error: " ++ toString status)
  else .ok (match data with
    | .jarray (e :: _) => jsOrElse e text
    | .jarray [] => text
    | .jobject g => jsOrElse g text
    | .jstring s => s
    | .other => text)

/-- Response handling of `M2M100Provider.translate`
(`translation-service.ts` lines 649-671); identical shape to OPUS-MT. -/
def m2m100HandleResponse (ok : Bool) (status : Nat) (data : HFData)
    (text : String) : Except String String :=
  if !ok then
    if status = 503 then .error "M2M-100 model is loading, please retry"
    else .error ("M2M-100 API error: " ++ toString status)
  else .ok (match data with
    | .jarray (e :: _) => jsOrElse e text
    | .jarray [] => text
    | .jobject g => jsOrElse g text
    | .jstring s => s
    | .other => text)

/-! ## Orchestrator (`HybridTranslationService.translate`,
`translation-service.ts` lines 721-888)

The racing phase and the sequential fallback phase are modelled by the
outcome each eligible provider produces in each phase: either a returned
string (`Except.ok`, possibly empty) or a thrown error message
(`Except.error`).  The list of attempts is the `availableProviders` list in
priority-sorted order.  The aggregate failure is modelled as the collected
`errors` array; the source renders it to the single message
`"Translation failed: " ++ String.intercalate "; " errors`. -/

deriving instance DecidableEq for Except

/-- One eligible provider in a `translate` call: its name and the outcome
of its racing-phase and sequential-fallback-phase calls. -/
structure ProviderAttempt where
  name : String
  race : Except String String
  seq : Except String String
deriving DecidableEq, Repr

/-- `successfulTranslations` (`translation-service.ts` lines 818-830): the
racing-phase results that fulfilled with a non-empty string, in provider
priority order. -/
def raceSuccesses (attempts : List ProviderAttempt) : List TranslationCandidate :=
  attempts.filterMap fun a =>
    match a.race with
    | .ok t => if t = "" then none else some { text := t, provider := a.name }
    | .error _ => none

/-- The sequential-fallback loop (`translation-service.ts` lines 833-857):
return the first non-empty result; collect thrown errors; an empty
non-throwing result is skipped without collecting an error. -/
def seqFallback : List (Except String String) → List String → Except (List String) String
  | [], errors => .error errors
  | .ok t :: rest, errors => if t = "" then seqFallback rest errors else .ok t
  | .error m :: rest, errors => seqFallback rest (errors ++ [m])

/-- The message of the aggregate failure
(`translation-service.ts` lines 854-856). -/
def aggregateFailureMessage (errors : List String) : String :=
  "Translation failed: " ++ String.intercalate "; " errors

/-- `HybridTranslationService.translate` after sanitization and provider
selection (`translation-service.ts` lines 756-888), as a function of the
per-provider outcomes.  In the multi-success branch `selectBestTranslation`
always returns `some` for a non-empty list, and both the above-threshold
branch and the low-quality warning branch return its text
(lines 872-884); the final `successfulTranslations[0]` fallback
(line 887) is therefore modelled with `headD`. -/
def hybridTranslate (lookup : LanguageLookup)
    (sanitizedText targetLang sourceLang : String)
    (attempts : List ProviderAttempt) : Except (List String) String :=
  let successes := raceSuccesses attempts
  match successes with
  | [] => seqFallback (attempts.map (·.seq)) []
  | [s] => .ok s.text
  | _ :: _ :: _ =>
    match selectBestTranslation lookup successes sanitizedText sourceLang targetLang 0.5 with
    | some best => .ok best.text
    | none => .ok ((successes.headD { text := "", provider := "" }).text)

/-! ## Translation cache (`functions/api/i18n/translation-cache.ts`)

Both tiers are modelled as association lists with JS-`Map` semantics
(insertion order, update-in-place); the KV tier is `none` when no KV
namespace is bound.  Timestamps are milliseconds as `ℚ`. -/

/-- Two's-complement 32-bit truncation, JavaScript's `x & x` / `ToInt32`. -/
def toInt32 (x : Int) : Int :=
  (x + 2 ^ 31) % 2 ^ 32 - 2 ^ 31

/-- One step of `simpleHash` (`translation-cache.ts` lines 209-217):
`hash = ((hash << 5) - hash) + char` followed by 32-bit truncation.  The
shift result is itself a 32-bit value in JS. -/
def simpleHashStep (hash : Int) (char : Nat) : Int :=
  toInt32 (toInt32 (hash * 32) - hash + char)

/-- Digit characters of JavaScript's `toString(36)`: `0`-`9` then `a`-`z`. -/
def base36DigitChar (n : Nat) : Char :=
  if n < 10 then Char.ofNat (48 + n) else Char.ofNat (97 + (n - 10))

/-- Most-significant-first base-36 digits of a positive number, fuelled. -/
def toBase36Go : Nat → Nat → List Char
  | 0, _ => []
  | Nat.succ fuel, n =>
    if n = 0 then [] else toBase36Go fuel (n / 36) ++ [base36DigitChar (n % 36)]

/-- JavaScript's `n.toString(36)` for a natural number. -/
def toBase36 (n : Nat) : String :=
  if n = 0 then "0" else (toBase36Go n n).asString

/-- `simpleHash`: fold the step over the text's characters, then render the
absolute value in base 36 (`Math.abs(hash).toString(36)`). -/
def simpleHash (text : String) : String :=
  let hash := text.data.foldl (fun h c => simpleHashStep h c.toNat) 0
  toBase36 hash.natAbs

/-- `generateCacheKey` (`translation-cache.ts` lines 194-203):
`translation:{sourceLang}:{targetLang}:{hash}`. -/
def generateCacheKey (sourceText sourceLang targetLang : String) : String :=
  "translation:" ++ sourceLang ++ ":" ++ targetLang ++ ":" ++ simpleHash sourceText

/-- `CacheEntry` (`translation-cache.ts` lines 15-26). -/
structure CacheEntry where
  text : String
  timestamp : ℚ
  version : String
  provider : Option String
  qualityScore : Option ℚ
deriving DecidableEq, Repr

/-- A key/value store tier: association list with unique keys in insertion
order. -/
abbrev CacheStore : Type := List (String × CacheEntry)

/-- Key lookup in a tier. -/
def mapLookup (store : CacheStore) (key : String) : Option CacheEntry :=
  (List.find? (fun p => p.1 = key) store).map (·.2)

/-- Key deletion in a tier. -/
def mapErase (store : CacheStore) (key : String) : CacheStore :=
  List.filter (fun p => ¬ p.1 = key) store

/-- JS `Map.set` / KV `put`: update in place when present, else append. -/
def mapSet (store : CacheStore) (key : String) (value : CacheEntry) : CacheStore :=
  if List.any store (fun p => p.1 = key) then
    List.map (fun p => if p.1 = key then (key, value) else p) store
  else store ++ [(key, value)]

/-- `DEFAULT_CONFIG.ttl` (`translation-cache.ts` line 44): 30 days in
seconds.  Both tier `get`s read this constant, not the configured TTL. -/
def defaultCacheTtl : ℚ := 30 * 24 * 60 * 60

/-- `InMemoryCache.maxSize` (`translation-cache.ts` line 55). -/
def inMemoryMaxSize : Nat := 10000

/-- `InMemoryCache.get` (`translation-cache.ts` lines 57-73): TTL-expired
entries are deleted and reported as absent. -/
def inMemoryGet (cache : CacheStore) (key : String) (now : ℚ) :
    Option CacheEntry × CacheStore :=
  match mapLookup cache key with
  | none => (none, cache)
  | some entry =>
    if (now - entry.timestamp) / 1000 > defaultCacheTtl then (none, mapErase cache key)
    else (some entry, cache)

/-- `InMemoryCache.set` (`translation-cache.ts` lines 75-85): evict the
first-inserted key when the size cap is reached, then insert. -/
def inMemorySet (cache : CacheStore) (key : String) (value : CacheEntry) : CacheStore :=
  let cache :=
    if cache.length ≥ inMemoryMaxSize then
      match cache with
      | [] => cache
      | (firstKey, _) :: _ => mapErase cache firstKey
    else cache
  mapSet cache key value

/-- `KVCache.get` (`translation-cache.ts` lines 111-138): absent namespace
reads as a miss; TTL-expired entries are deleted and reported as absent. -/
def kvGet (kv : Option CacheStore) (key : String) (now : ℚ) :
    Option CacheEntry × Option CacheStore :=
  match kv with
  | none => (none, none)
  | some store =>
    match mapLookup store key with
    | none => (none, some store)
    | some entry =>
      if (now - entry.timestamp) / 1000 > defaultCacheTtl then (none, some (mapErase store key))
      else (some entry, some store)

/-- `KVCache.set` (`translation-cache.ts` lines 140-153). -/
def kvSet (kv : Option CacheStore) (key : String) (value : CacheEntry) : Option CacheStore :=
  kv.map fun store => mapSet store key value

/-- `KVCache.delete` (`translation-cache.ts` lines 155-165). -/
def kvDelete (kv : Option CacheStore) (key : String) : Option CacheStore :=
  kv.map fun store => mapErase store key

/-- The mutable state of a `TranslationCache` instance
(`translation-cache.ts` lines 177-188), including its resolved
configuration.  The configured `ttl` is carried but, as in the source, both
tiers expire against `DEFAULT_CONFIG.ttl`. -/
structure TranslationCacheState where
  kv : Option CacheStore
  memory : CacheStore
  version : String
  ttl : ℚ
  enabled : Bool
deriving Repr

/-- `TranslationCache.delete` (`translation-cache.ts` lines 292-303):
remove the key from both tiers. -/
def translationCacheDelete (c : TranslationCacheState)
    (sourceText sourceLang targetLang : String) : TranslationCacheState :=
  let key := generateCacheKey sourceText sourceLang targetLang
  { c with kv := kvDelete c.kv key, memory := mapErase c.memory key }

/-- The tier-order lookup of `TranslationCache.get`
(`translation-cache.ts` lines 233-239): KV tier first, memory tier only on
a KV miss; returns the found entry (if any) and the state after any
TTL-expiry deletions performed by the tiers. -/
def tierLookup (c : TranslationCacheState) (key : String) (now : ℚ) :
    Option CacheEntry × TranslationCacheState :=
  let (kvEntry, kv') := kvGet c.kv key now
  match kvEntry with
  | some e => (some e, { c with kv := kv' })
  | none =>
    let (memEntry, mem') := inMemoryGet c.memory key now
    (memEntry, { c with kv := kv', memory := mem' })

/-- `TranslationCache.get` (`translation-cache.ts` lines 222-253): KV tier
first, memory tier on a KV miss; a version mismatch deletes the entry from
both tiers and reads as a miss. -/
def translationCacheGet (c : TranslationCacheState)
    (sourceText sourceLang targetLang : String) (now : ℚ) :
    Option String × TranslationCacheState :=
  if !c.enabled then (none, c)
  else
    let key := generateCacheKey sourceText sourceLang targetLang
    let (entry, c₁) := tierLookup c key now
    match entry with
    | none => (none, c₁)
    | some e =>
      if e.version ≠ c.version then
        (none, translationCacheDelete c₁ sourceText sourceLang targetLang)
      else (some e.text, c₁)

/-- `TranslationCache.set` (`translation-cache.ts` lines 258-287): stamp
the entry with the configured version and the current time, and write it to
both tiers. -/
def translationCacheSet (c : TranslationCacheState)
    (sourceText sourceLang targetLang translatedText : String) (now : ℚ)
    (provider : Option String) (qualityScore : Option ℚ) : TranslationCacheState :=
  if !c.enabled then c
  else
    let key := generateCacheKey sourceText sourceLang targetLang
    let entry : CacheEntry :=
      { text := translatedText, timestamp := now, version := c.version
        provider := provider, qualityScore := qualityScore }
    { c with kv := kvSet c.kv key entry, memory := inMemorySet c.memory key entry }

/-! ## The per-key cache discipline of `getTranslations`
(`functions/api/i18n/[[path]].ts` lines 166-233) -/

/-- Outcome of the per-key cache consultation in `getTranslations`: either
the key is served from the cache (no provider invoked for it) or it joins
`uncachedKeys` and is sent to the providers. -/
inductive KeyLookupOutcome where
  | cached (text : String)
  | needsProvider
deriving DecidableEq, Repr

/-- The cache consultation for one key (`[[path]].ts` lines 168-195):
`if (cached)` is a JS truthiness test, so an empty cached string is
treated as a miss. -/
def translationKeyLookup (c : TranslationCacheState)
    (sourceText language : String) (now : ℚ) :
    KeyLookupOutcome × TranslationCacheState :=
  match translationCacheGet c sourceText "en" language now with
  | (some t, c') => if t = "" then (.needsProvider, c') else (.cached t, c')
  | (none, c') => (.needsProvider, c')

/-- The cache population after a key is translated
(`[[path]].ts` lines 219-232): the translation is cached only when it
differs from the English source text. -/
def translationKeyStore (c : TranslationCacheState)
    (sourceText language translatedText : String) (now : ℚ) : TranslationCacheState :=
  if translatedText ≠ sourceText then
    translationCacheSet c sourceText "en" language translatedText now
      (some "HybridTranslationService") none
  else c

/-! ## Metrics collector (`translation-metrics`, unnamed source `part_003`) -/

/-- `TranslationMetric` (`part_003` lines 16-37). -/
structure TranslationMetric where
  timestamp : ℚ
  provider : String
  sourceLang : String
  targetLang : String
  responseTime : ℚ
  success : Bool
  error : Option String
  qualityScore : Option ℚ
  fromCache : Bool
  textLength : Nat
deriving DecidableEq, Repr

/-- `ProviderStats` (`part_003` lines 42-59). -/
structure ProviderStats where
  provider : String
  totalRequests : Nat
  successfulRequests : Nat
  failedRequests : Nat
  averageResponseTime : ℚ
  averageQualityScore : ℚ
  cacheHitRate : ℚ
  errorRate : ℚ
deriving DecidableEq, Repr

/-- `TranslationStats` (`part_003` lines 64-81). -/
structure TranslationStats where
  totalTranslations : Nat
  cacheHits : Nat
  cacheMisses : Nat
  cacheHitRate : ℚ
  averageQualityScore : ℚ
  providerStats : List ProviderStats
  topLanguages : List (String × Nat)
  errorRate : ℚ
deriving DecidableEq, Repr

/-- `MetricsStore.maxMetrics` (`part_003` line 89). -/
def maxMetrics : Nat := 10000

/-- `MetricsStore.add` (`part_003` lines 91-98): append and keep only the
most recent `maxMetrics` entries (ring buffer). -/
def metricsAdd (metrics : List TranslationMetric) (m : TranslationMetric) :
    List TranslationMetric :=
  let metrics := metrics ++ [m]
  if metrics.length > maxMetrics then
    metrics.drop (metrics.length - maxMetrics)
  else metrics

/-- Keys of a JS `Map` built by grouping, in first-appearance order. -/
def keysInOrder (l : List String) : List String :=
  l.foldl (fun acc p => if p ∈ acc then acc else acc ++ [p]) []

/-- Average of a list of rationals, `0` when empty (the
`length > 0 ? sum / length : 0` idiom of `getStats`). -/
def averageOrZero (l : List ℚ) : ℚ :=
  if l.length = 0 then 0 else l.sum / l.length

/-- The per-provider aggregation of `MetricsStore.getStats`
(`part_003` lines 158-190). -/
def mkProviderStats (provider : String) (ms : List TranslationMetric) : ProviderStats :=
  let totalRequests := ms.length
  let successfulRequests := (ms.filter (·.success)).length
  let failedRequests := totalRequests - successfulRequests
  let averageResponseTime := averageOrZero (ms.map (·.responseTime))
  let averageQualityScore := averageOrZero (ms.filterMap (·.qualityScore))
  let cacheHits := (ms.filter (·.fromCache)).length
  { provider := provider
    totalRequests := totalRequests
    successfulRequests := successfulRequests
    failedRequests := failedRequests
    averageResponseTime := averageResponseTime
    averageQualityScore := averageQualityScore
    cacheHitRate := (cacheHits : ℚ) / (totalRequests : ℚ)
    errorRate := (failedRequests : ℚ) / (totalRequests : ℚ) }

/-- The `topLanguages` aggregation of `getStats` (`part_003` lines
193-202): per-target-language counts, sorted by count descending, top 10. -/
def topLanguagesOf (metrics : List TranslationMetric) : List (String × Nat) :=
  let langs := keysInOrder (metrics.map (·.targetLang))
  let counted := langs.map fun l => (l, (metrics.filter (·.targetLang = l)).length)
  (List.mergeSort counted (fun a b => a.2 ≥ b.2)).take 10

/-- `MetricsStore.getStats` (`part_003` lines 118-214).  An empty store
reports all-zero statistics, in particular `cacheHitRate = 0`. -/
def getStats (metrics : List TranslationMetric) : TranslationStats :=
  if metrics.length = 0 then
    { totalTranslations := 0, cacheHits := 0, cacheMisses := 0, cacheHitRate := 0
      averageQualityScore := 0, providerStats := [], topLanguages := [], errorRate := 0 }
  else
    let total := metrics.length
    let cacheHits := (metrics.filter (·.fromCache)).length
    let successful := (metrics.filter (·.success)).length
    { totalTranslations := total
      cacheHits := cacheHits
      cacheMisses := total - cacheHits
      cacheHitRate := (cacheHits : ℚ) / (total : ℚ)
      averageQualityScore := averageOrZero (metrics.filterMap (·.qualityScore))
      providerStats :=
        (keysInOrder (metrics.map (·.provider))).map fun p =>
          mkProviderStats p (metrics.filter (·.provider = p))
      topLanguages := topLanguagesOf metrics
      errorRate := ((total - successful : Nat) : ℚ) / (total : ℚ) }

/-- `checkPerformanceDegradation` (`part_003` lines 306-342).  The issue
strings carry formatted percentages in the source; the numeric rendering is
omitted here, only the presence of each issue is modelled.  `isDegrading`
is `issues.length > 0`. -/
def checkPerformanceDegradation (metrics : List TranslationMetric) :
    Bool × List String :=
  let stats := getStats metrics
  let issues :=
    (if stats.errorRate > 0.1 then ["High error rate"] else []) ++
    (stats.providerStats.flatMap fun ps =>
      (if ps.errorRate > 0.2 then ["Provider " ++ ps.provider ++ " has high error rate"] else []) ++
      (if ps.averageResponseTime > 10000 then ["Provider " ++ ps.provider ++ " is slow"] else [])) ++
    (if stats.cacheHitRate < 0.3 then ["Low cache hit rate"] else [])
  (decide (issues.length > 0), issues)

/-! ## Sub-score bounds -/

theorem calculateLengthRatioScore_bounds (sourceText translatedText sourceLang targetLang : String) :
    0 ≤ calculateLengthRatioScore sourceText translatedText sourceLang targetLang ∧
      calculateLengthRatioScore sourceText translatedText sourceLang targetLang ≤ 1 := by
  unfold calculateLengthRatioScore
  dsimp only
  have hr : (0 : ℚ) ≤ (translatedText.length : ℚ) / (sourceText.length : ℚ) :=
    div_nonneg (by positivity) (by positivity)
  split_ifs with h1 h2 h3 h4
  · exact ⟨by norm_num, by norm_num⟩
  · exact ⟨by norm_num, by norm_num⟩
  · norm_num at h3
    refine ⟨le_max_left 0 _, max_le (by norm_num) ?_⟩
    rw [div_le_one (by norm_num : (0 : ℚ) < (0.3 : ℚ))]
    norm_num
    linarith
  · norm_num at h4
    refine ⟨le_max_left 0 _, max_le (by norm_num) ?_⟩
    have hd : (0 : ℚ) ≤ ((translatedText.length : ℚ) / (sourceText.length : ℚ) - 3) / 3 :=
      div_nonneg (by linarith) (by norm_num)
    linarith
  · exact ⟨by norm_num, by norm_num⟩

theorem calculateEncodingScore_bounds (translatedText : String) :
    0 ≤ calculateEncodingScore translatedText ∧ calculateEncodingScore translatedText ≤ 1 := by
  unfold calculateEncodingScore
  split_ifs <;> norm_num

theorem scriptRatioScore_bounds (r : ℚ) :
    0 ≤ scriptRatioScore r ∧ scriptRatioScore r ≤ 1 := by
  unfold scriptRatioScore
  split_ifs <;> norm_num

theorem calculateScriptConsistencyScore_bounds (lookup : LanguageLookup)
    (translatedText targetLang : String) :
    0 ≤ calculateScriptConsistencyScore lookup translatedText targetLang ∧
      calculateScriptConsistencyScore lookup translatedText targetLang ≤ 1 := by
  unfold calculateScriptConsistencyScore
  split <;> try norm_num
  split <;> try norm_num
  split <;> try norm_num
  split_ifs with h
  · norm_num
  · exact scriptRatioScore_bounds _

theorem calculateLanguageMatchScore_bounds (lookup : LanguageLookup)
    (translatedText targetLang : String) :
    0 ≤ calculateLanguageMatchScore lookup translatedText targetLang ∧
      calculateLanguageMatchScore lookup translatedText targetLang ≤ 1 := by
  unfold calculateLanguageMatchScore
  dsimp only
  have hs := calculateScriptConsistencyScore_bounds lookup translatedText targetLang
  have hmul0 : (0 : ℚ) ≤ calculateScriptConsistencyScore lookup translatedText targetLang * 0.9 :=
    mul_nonneg hs.1 (by norm_num)
  have hmul1 : calculateScriptConsistencyScore lookup translatedText targetLang * 0.9 ≤ 1 := by
    have := mul_le_mul_of_nonneg_right hs.2 (by norm_num : (0 : ℚ) ≤ 0.9)
    linarith
  split <;> try norm_num
  split_ifs <;> constructor <;> linarith [hs.1, hs.2]

theorem calculateConfidenceScore_bounds (sourceText translatedText : String) :
    0 ≤ calculateConfidenceScore sourceText translatedText ∧
      calculateConfidenceScore sourceText translatedText ≤ 1 := by
  unfold calculateConfidenceScore
  dsimp only
  split_ifs <;>
    constructor <;>
    first
      | norm_num
      | (apply le_max_left)
      | (apply max_le (by norm_num) (min_le_left _ _))

/-- C5 — For every input to `evaluateTranslationQuality`, the overall score
equals `lengthRatio*0.15 + encoding*0.20 + scriptConsistency*0.25 +
languageMatch*0.25 + confidence*0.15`, the overall score lies in `[0, 1]`,
and the returned `passes` flag is true if and only if the overall score is
`≥` the threshold (the caller-side default threshold is `0.5`). -/
theorem evaluateTranslationQuality_weighted_sum_bounds_passes
    (lookup : LanguageLookup)
    (sourceText translatedText sourceLang targetLang : String) (threshold : ℚ) :
    (evaluateTranslationQuality lookup sourceText translatedText sourceLang targetLang threshold).score =
      (evaluateTranslationQuality lookup sourceText translatedText sourceLang targetLang threshold).metrics.lengthRatio * 0.15 +
      (evaluateTranslationQuality lookup sourceText translatedText sourceLang targetLang threshold).metrics.encoding * 0.20 +
      (evaluateTranslationQuality lookup sourceText translatedText sourceLang targetLang threshold).metrics.scriptConsistency * 0.25 +
      (evaluateTranslationQuality lookup sourceText translatedText sourceLang targetLang threshold).metrics.languageMatch * 0.25 +
      (evaluateTranslationQuality lookup sourceText translatedText sourceLang targetLang threshold).metrics.confidence * 0.15 ∧
    0 ≤ (evaluateTranslationQuality lookup sourceText translatedText sourceLang targetLang threshold).score ∧
    (evaluateTranslationQuality lookup sourceText translatedText sourceLang targetLang threshold).score ≤ 1 ∧
    ((evaluateTranslationQuality lookup sourceText translatedText sourceLang targetLang threshold).passes = true ↔
      threshold ≤ (evaluateTranslationQuality lookup sourceText translatedText sourceLang targetLang threshold).score) := by
  have h1 := calculateLengthRatioScore_bounds sourceText translatedText sourceLang targetLang
  have h2 := calculateEncodingScore_bounds translatedText
  have h3 := calculateScriptConsistencyScore_bounds lookup translatedText targetLang
  have h4 := calculateLanguageMatchScore_bounds lookup translatedText targetLang
  have h5 := calculateConfidenceScore_bounds sourceText translatedText
  refine ⟨rfl, ?_, ?_, ?_⟩
  · simp only [evaluateTranslationQuality]
    linarith [h1.1, h2.1, h3.1, h4.1, h5.1]
  · simp only [evaluateTranslationQuality]
    linarith [h1.2, h2.2, h3.2, h4.2, h5.2]
  · simp only [evaluateTranslationQuality, ge_iff_le, decide_eq_true_eq]

/-- The overall score is never negative (used by the candidate-selection
theorem: every candidate strictly beats the initial `bestScore = -1`). -/
theorem evaluateTranslationQuality_score_nonneg (lookup : LanguageLookup)
    (sourceText translatedText sourceLang targetLang : String) (threshold : ℚ) :
    0 ≤ (evaluateTranslationQuality lookup sourceText translatedText sourceLang targetLang threshold).score :=
  (evaluateTranslationQuality_weighted_sum_bounds_passes lookup sourceText translatedText
    sourceLang targetLang threshold).2.1

/-! ## Selection among successful candidates -/

/-- The running best of `selectBestGo` is unchanged when no remaining
candidate strictly improves on the running best score. -/
theorem selectBestGo_no_improvement (lookup : LanguageLookup)
    (sourceText sourceLang targetLang : String) (threshold : ℚ)
    (l : List TranslationCandidate) (b0 : Option BestTranslation) (s0 : ℚ)
    (h : ∀ c ∈ l, candidateScore lookup sourceText sourceLang targetLang threshold c ≤ s0) :
    selectBestGo lookup sourceText sourceLang targetLang threshold l b0 s0 = b0 := by
  induction l generalizing b0 s0 with
  | nil => rfl
  | cons a rest ih =>
    unfold selectBestGo
    dsimp only
    rw [if_neg (not_lt.mpr (h a (List.mem_cons_self a rest)))]
    exact ih b0 s0 (fun c hc => h c (List.mem_cons_of_mem a hc))

/-- `selectBestGo` returns the first candidate attaining the maximal score,
whenever some candidate strictly improves on the initial running score. -/
theorem selectBestGo_first_max (lookup : LanguageLookup)
    (sourceText sourceLang targetLang : String) (threshold : ℚ)
    (l : List TranslationCandidate) (b0 : Option BestTranslation) (s0 : ℚ)
    (h : ∃ c ∈ l, s0 < candidateScore lookup sourceText sourceLang targetLang threshold c) :
    ∃ pre best post, l = pre ++ best :: post ∧
      selectBestGo lookup sourceText sourceLang targetLang threshold l b0 s0 =
        some { text := best.text, provider := best.provider
               score := candidateScore lookup sourceText sourceLang targetLang threshold best } ∧
      s0 < candidateScore lookup sourceText sourceLang targetLang threshold best ∧
      (∀ c ∈ l, candidateScore lookup sourceText sourceLang targetLang threshold c ≤
        candidateScore lookup sourceText sourceLang targetLang threshold best) ∧
      (∀ c ∈ pre, candidateScore lookup sourceText sourceLang targetLang threshold c <
        candidateScore lookup sourceText sourceLang targetLang threshold best) := by
  induction l generalizing b0 s0 with
  | nil => simp at h
  | cons a rest ih =>
    by_cases hc : s0 < candidateScore lookup sourceText sourceLang targetLang threshold a
    · have hstep : selectBestGo lookup sourceText sourceLang targetLang threshold (a :: rest) b0 s0 =
          selectBestGo lookup sourceText sourceLang targetLang threshold rest
            (some { text := a.text, provider := a.provider
                    score := candidateScore lookup sourceText sourceLang targetLang threshold a })
            (candidateScore lookup sourceText sourceLang targetLang threshold a) := by
        conv_lhs => unfold selectBestGo
        dsimp only
        rw [if_pos hc]
      rw [hstep]
      by_cases hrest : ∃ c ∈ rest,
          candidateScore lookup sourceText sourceLang targetLang threshold a <
            candidateScore lookup sourceText sourceLang targetLang threshold c
      · obtain ⟨pre, best, post, hdecomp, hrun, hlt, hmax, hpre⟩ := ih _ _ hrest
        refine ⟨a :: pre, best, post, by rw [hdecomp, List.cons_append], hrun, lt_trans hc hlt, ?_, ?_⟩
        · intro c hmem
          rcases List.mem_cons.mp hmem with hca | hcr
          · exact hca ▸ le_of_lt hlt
          · exact hmax c hcr
        · intro c hmem
          rcases List.mem_cons.mp hmem with hca | hcr
          · exact hca ▸ hlt
          · exact hpre c hcr
      · push_neg at hrest
        rw [selectBestGo_no_improvement lookup sourceText sourceLang targetLang threshold
          rest _ _ hrest]
        refine ⟨[], a, rest, rfl, rfl, hc, ?_, by simp⟩
        intro c hmem
        rcases List.mem_cons.mp hmem with hca | hcr
        · exact hca ▸ le_refl _
        · exact hrest c hcr
    · have hstep : selectBestGo lookup sourceText sourceLang targetLang threshold (a :: rest) b0 s0 =
          selectBestGo lookup sourceText sourceLang targetLang threshold rest b0 s0 := by
        conv_lhs => unfold selectBestGo
        dsimp only
        rw [if_neg hc]
      rw [hstep]
      obtain ⟨c0, hc0mem, hc0⟩ := h
      have hc0r : c0 ∈ rest := by
        rcases List.mem_cons.mp hc0mem with hca | hcr
        · exact absurd (hca ▸ hc0) hc
        · exact hcr
      obtain ⟨pre, best, post, hdecomp, hrun, hlt, hmax, hpre⟩ := ih b0 s0 ⟨c0, hc0r, hc0⟩
      refine ⟨a :: pre, best, post, by rw [hdecomp, List.cons_append], hrun, hlt, ?_, ?_⟩
      · intro c hmem
        rcases List.mem_cons.mp hmem with hca | hcr
        · exact hca ▸ le_of_lt (lt_of_le_of_lt (not_lt.mp hc) hlt)
        · exact hmax c hcr
      · intro c hmem
        rcases List.mem_cons.mp hmem with hca | hcr
        · exact hca ▸ lt_of_le_of_lt (not_lt.mp hc) hlt
        · exact hpre c hcr

/-- C2 — For every non-empty list of successful candidates and fixed scoring
parameters, `selectBestTranslation` returns a candidate whose quality score
is maximal among the list; when two or more candidates share the maximal
score, it returns the one that appears earliest in the input list (every
candidate before the returned one scores strictly lower). -/
theorem selectBestTranslation_first_max (lookup : LanguageLookup)
    (translations : List TranslationCandidate)
    (sourceText sourceLang targetLang : String) (threshold : ℚ)
    (h : translations ≠ []) :
    ∃ pre best post, translations = pre ++ best :: post ∧
      selectBestTranslation lookup translations sourceText sourceLang targetLang threshold =
        some { text := best.text, provider := best.provider
               score := candidateScore lookup sourceText sourceLang targetLang threshold best } ∧
      (∀ c ∈ translations,
        candidateScore lookup sourceText sourceLang targetLang threshold c ≤
          candidateScore lookup sourceText sourceLang targetLang threshold best) ∧
      (∀ c ∈ pre,
        candidateScore lookup sourceText sourceLang targetLang threshold c <
          candidateScore lookup sourceText sourceLang targetLang threshold best) := by
  obtain ⟨a, rest, rfl⟩ := List.exists_cons_of_ne_nil h
  have hwit : ∃ c ∈ a :: rest,
      (-1 : ℚ) < candidateScore lookup sourceText sourceLang targetLang threshold c :=
    ⟨a, List.mem_cons_self a rest,
      lt_of_lt_of_le (by norm_num)
        (evaluateTranslationQuality_score_nonneg lookup sourceText a.text sourceLang
          targetLang threshold)⟩
  obtain ⟨pre, best, post, hdecomp, hrun, _, hmax, hpre⟩ :=
    selectBestGo_first_max lookup sourceText sourceLang targetLang threshold
      (a :: rest) none (-1) hwit
  refine ⟨pre, best, post, hdecomp, ?_, hmax, hpre⟩
  unfold selectBestTranslation
  rw [if_neg (by simp)]
  exact hrun

/-- Witness for C2: two concrete candidates for target language `ru`; the
all-Cyrillic candidate wins over the Latin one. -/
def cyrillicLookup : LanguageLookup :=
  fun code => if code = "ru" then some { script := some "Cyrl", rtl := false } else none

theorem selectBestTranslation_first_max_witness :
    ([⟨"привет", "LibreTranslate"⟩, ⟨"hello", "NLLB (Hugging Face)"⟩] :
        List TranslationCandidate) ≠ [] ∧
    (∃ pre best post,
      ([⟨"привет", "LibreTranslate"⟩, ⟨"hello", "NLLB (Hugging Face)"⟩] :
          List TranslationCandidate) = pre ++ best :: post ∧
      selectBestTranslation cyrillicLookup
          [⟨"привет", "LibreTranslate"⟩, ⟨"hello", "NLLB (Hugging Face)"⟩]
          "hello" "en" "ru" 0.5 =
        some { text := best.text, provider := best.provider
               score := candidateScore cyrillicLookup "hello" "en" "ru" 0.5 best } ∧
      (∀ c ∈ ([⟨"привет", "LibreTranslate"⟩, ⟨"hello", "NLLB (Hugging Face)"⟩] :
          List TranslationCandidate),
        candidateScore cyrillicLookup "hello" "en" "ru" 0.5 c ≤
          candidateScore cyrillicLookup "hello" "en" "ru" 0.5 best) ∧
      (∀ c ∈ pre,
        candidateScore cyrillicLookup "hello" "en" "ru" 0.5 c <
          candidateScore cyrillicLookup "hello" "en" "ru" 0.5 best)) :=
  ⟨by decide,
    selectBestTranslation_first_max cyrillicLookup
      [⟨"привет", "LibreTranslate"⟩, ⟨"hello", "NLLB (Hugging Face)"⟩]
      "hello" "en" "ru" 0.5 (by decide)⟩

/-! ## Script-consistency shape (C6) -/

/-- A non-empty string has a non-zero character count. -/
theorem data_length_ne_zero_of_ne_empty {t : String} (ht : t ≠ "") :
    t.data.length ≠ 0 := by
  intro h0
  apply ht
  apply String.ext
  rw [List.length_eq_zero.mp h0]

/-- For a target language with known script metadata and a non-empty
candidate, the script-consistency sub-score is the threshold mapping of the
in-script fraction. -/
theorem calculateScriptConsistencyScore_known (lookup : LanguageLookup)
    (targetLang : String) (info : UniversalLanguageInfo) (s : String)
    (ranges : List (Nat × Nat)) (hinfo : lookup targetLang = some info)
    (hscript : info.script = some s) (hranges : scriptRangesTable s = some ranges)
    (t : String) (ht : t ≠ "") :
    calculateScriptConsistencyScore lookup t targetLang =
      scriptRatioScore (scriptRatio ranges t) := by
  unfold calculateScriptConsistencyScore
  simp only [hinfo, hscript, hranges]
  rw [if_neg (data_length_ne_zero_of_ne_empty ht)]

/-- The threshold mapping is monotone in the in-script fraction. -/
theorem scriptRatioScore_mono {a b : ℚ} (h : a ≤ b) :
    scriptRatioScore a ≤ scriptRatioScore b := by
  unfold scriptRatioScore
  split_ifs <;> linarith

/-- Counterexample to C6 as stated: for target language `ru` (Cyrillic),
the candidate `приветx` has a strictly lower in-script fraction than
`привет`, yet both receive the same script-consistency sub-score (1.0):
the mapping is a step function, not strictly decreasing. -/
theorem scriptConsistency_not_strictly_decreasing :
    scriptRatio ((scriptRangesTable "Cyrl").getD []) "приветx" <
      scriptRatio ((scriptRangesTable "Cyrl").getD []) "привет" ∧
    calculateScriptConsistencyScore cyrillicLookup "приветx" "ru" =
      calculateScriptConsistencyScore cyrillicLookup "привет" "ru" ∧
    calculateScriptConsistencyScore cyrillicLookup "привет" "ru" = 1 := by
  have hget : (scriptRangesTable "Cyrl").getD [] = [(0x0400, 0x04FF), (0x0500, 0x052F)] := by
    rfl
  have hr1 : scriptRatio [(0x0400, 0x04FF), (0x0500, 0x052F)] "приветx" = 6 / 7 := by
    unfold scriptRatio
    rw [show scriptCharCount [(0x0400, 0x04FF), (0x0500, 0x052F)] "приветx" = 6 from by decide,
      show ("приветx" : String).data.length = 7 from by decide]
    norm_num
  have hr2 : scriptRatio [(0x0400, 0x04FF), (0x0500, 0x052F)] "привет" = 1 := by
    unfold scriptRatio
    rw [show scriptCharCount [(0x0400, 0x04FF), (0x0500, 0x052F)] "привет" = 6 from by decide,
      show ("привет" : String).data.length = 6 from by decide]
    norm_num
  have hs1 : calculateScriptConsistencyScore cyrillicLookup "приветx" "ru" = 1 := by
    rw [calculateScriptConsistencyScore_known cyrillicLookup "ru"
      { script := some "Cyrl", rtl := false } "Cyrl" [(0x0400, 0x04FF), (0x0500, 0x052F)]
      rfl rfl rfl "приветx" (by decide), hr1]
    unfold scriptRatioScore
    rw [if_pos (by norm_num : (6 : ℚ) / 7 ≥ 0.8)]
  have hs2 : calculateScriptConsistencyScore cyrillicLookup "привет" "ru" = 1 := by
    rw [calculateScriptConsistencyScore_known cyrillicLookup "ru"
      { script := some "Cyrl", rtl := false } "Cyrl" [(0x0400, 0x04FF), (0x0500, 0x052F)]
      rfl rfl rfl "привет" (by decide), hr2]
    unfold scriptRatioScore
    rw [if_pos (by norm_num : (1 : ℚ) ≥ 0.8)]
  refine ⟨?_, by rw [hs1, hs2], hs2⟩
  rw [hget, hr1, hr2]
  norm_num

/-- C6 (amended) — For every target language with known script metadata:
the script-consistency sub-score is 1.0 when 100% of the characters of a
non-empty candidate lie within the expected script's Unicode ranges, and it
is weakly decreasing in the out-of-script proportion (via the thresholds
`≥0.8 → 1.0`, `≥0.5 → 0.7`, `≥0.3 → 0.4`, else `0.1`): a candidate with a
lower in-script fraction receives a lower-or-equal sub-score, not a
strictly lower one. -/
theorem scriptConsistency_full_and_monotone (lookup : LanguageLookup)
    (targetLang : String) (info : UniversalLanguageInfo) (s : String)
    (ranges : List (Nat × Nat)) (hinfo : lookup targetLang = some info)
    (hscript : info.script = some s) (hranges : scriptRangesTable s = some ranges) :
    (∀ t : String, t ≠ "" → (∀ c ∈ t.data, charInRanges ranges c = true) →
      calculateScriptConsistencyScore lookup t targetLang = 1) ∧
    (∀ t u : String, t ≠ "" → u ≠ "" →
      scriptRatio ranges u ≤ scriptRatio ranges t →
      calculateScriptConsistencyScore lookup u targetLang ≤
        calculateScriptConsistencyScore lookup t targetLang) := by
  constructor
  · intro t ht hall
    rw [calculateScriptConsistencyScore_known lookup targetLang info s ranges
      hinfo hscript hranges t ht]
    have hfilter : t.data.filter (charInRanges ranges) = t.data :=
      List.filter_eq_self.mpr hall
    have hone : scriptRatio ranges t = 1 := by
      unfold scriptRatio scriptCharCount
      rw [hfilter]
      exact div_self (by exact_mod_cast data_length_ne_zero_of_ne_empty ht)
    rw [hone]
    norm_num [scriptRatioScore]
  · intro t u ht hu hle
    rw [calculateScriptConsistencyScore_known lookup targetLang info s ranges
      hinfo hscript hranges t ht,
      calculateScriptConsistencyScore_known lookup targetLang info s ranges
      hinfo hscript hranges u hu]
    exact scriptRatioScore_mono hle

theorem scriptConsistency_full_and_monotone_witness :
    cyrillicLookup "ru" = some { script := some "Cyrl", rtl := false } ∧
    ({ script := some "Cyrl", rtl := false } : UniversalLanguageInfo).script = some "Cyrl" ∧
    scriptRangesTable "Cyrl" = some [(0x0400, 0x04FF), (0x0500, 0x052F)] ∧
    ((∀ t : String, t ≠ "" →
        (∀ c ∈ t.data, charInRanges [(0x0400, 0x04FF), (0x0500, 0x052F)] c = true) →
        calculateScriptConsistencyScore cyrillicLookup t "ru" = 1) ∧
      (∀ t u : String, t ≠ "" → u ≠ "" →
        scriptRatio [(0x0400, 0x04FF), (0x0500, 0x052F)] u ≤
          scriptRatio [(0x0400, 0x04FF), (0x0500, 0x052F)] t →
        calculateScriptConsistencyScore cyrillicLookup u "ru" ≤
          calculateScriptConsistencyScore cyrillicLookup t "ru")) :=
  ⟨by decide, by decide, by decide,
    scriptConsistency_full_and_monotone cyrillicLookup "ru"
      { script := some "Cyrl", rtl := false } "Cyrl"
      [(0x0400, 0x04FF), (0x0500, 0x052F)] (by decide) (by decide) (by decide)⟩

/-! ## Confidence multiplier on identical texts (C7) -/

/-- The everywhere-unknown language lookup (no script metadata). -/
def unknownLookup : LanguageLookup := fun _ => none

/-- With no language metadata the script-consistency sub-score is the
neutral 0.8. -/
theorem calculateScriptConsistencyScore_unknown (t targetLang : String) :
    calculateScriptConsistencyScore unknownLookup t targetLang = 0.8 := rfl

/-- With no language metadata the language-match sub-score is the
neutral 0.8. -/
theorem calculateLanguageMatchScore_unknown (t targetLang : String) :
    calculateLanguageMatchScore unknownLookup t targetLang = 0.8 := rfl

/-- The length-ratio sub-score is 1 when source and candidate have the same
non-zero length. -/
theorem calculateLengthRatioScore_of_eq_length (s t sl tl : String)
    (hs : s.length ≠ 0) (hlen : t.length = s.length) :
    calculateLengthRatioScore s t sl tl = 1 := by
  unfold calculateLengthRatioScore
  rw [if_neg hs]
  dsimp only
  rw [hlen]
  have hpos : (0 : ℚ) < (s.length : ℚ) := by exact_mod_cast Nat.pos_of_ne_zero hs
  rw [div_self (ne_of_gt hpos)]
  rw [if_neg (by norm_num), if_neg (by norm_num)]

/-- The encoding sub-score is 1 for non-empty text with no replacement
character. -/
theorem calculateEncodingScore_of_clean (t : String) (h0 : t.length ≠ 0)
    (hrep : t.data.contains '�' = false) :
    calculateEncodingScore t = 1 := by
  unfold calculateEncodingScore
  rw [if_neg h0, if_neg (show ¬t.data.contains '�' = true by rw [hrep]; decide)]

/-- Counterexample to C7 as stated: for sourceText = "Hello" and candidate
= "Hello", the source length is 5, which is not `> 5`, so the 0.3
multiplier is NOT applied: the confidence sub-score is 1.0, and the overall
score equals that of an otherwise-equivalent non-identical candidate
("Howdy") instead of being strictly lower. -/
theorem confidence_hello_identical_not_penalized :
    calculateConfidenceScore "Hello" "Hello" = 1 ∧
    (evaluateTranslationQuality unknownLookup "Hello" "Hello" "en" "xx" 0.5).metrics.confidence = 1 ∧
    (evaluateTranslationQuality unknownLookup "Hello" "Hello" "en" "xx" 0.5).score =
      (evaluateTranslationQuality unknownLookup "Hello" "Howdy" "en" "xx" 0.5).score := by
  have hch : calculateConfidenceScore "Hello" "Hello" = 1 := by
    unfold calculateConfidenceScore
    rw [if_neg (show ¬(jsTrim "Hello").length = 0 by decide)]
    dsimp only
    rw [if_neg (show ¬(("Hello" : String) = "Hello" ∧ ("Hello" : String).length > 5) by decide),
      if_neg (show ¬matchesErrorPattern "Hello" = true by decide),
      if_neg (show ¬("Hello" : String).length > 20 by decide)]
    norm_num
  have hcw : calculateConfidenceScore "Hello" "Howdy" = 1 := by
    unfold calculateConfidenceScore
    rw [if_neg (show ¬(jsTrim "Howdy").length = 0 by decide)]
    dsimp only
    rw [if_neg (show ¬(("Howdy" : String) = "Hello" ∧ ("Hello" : String).length > 5) by decide),
      if_neg (show ¬matchesErrorPattern "Howdy" = true by decide),
      if_neg (show ¬("Howdy" : String).length > 20 by decide)]
    norm_num
  have hlh : calculateLengthRatioScore "Hello" "Hello" "en" "xx" = 1 :=
    calculateLengthRatioScore_of_eq_length _ _ _ _ (by decide) (by decide)
  have hlw : calculateLengthRatioScore "Hello" "Howdy" "en" "xx" = 1 :=
    calculateLengthRatioScore_of_eq_length _ _ _ _ (by decide) (by decide)
  have heh : calculateEncodingScore "Hello" = 1 :=
    calculateEncodingScore_of_clean _ (by decide) (by decide)
  have hew : calculateEncodingScore "Howdy" = 1 :=
    calculateEncodingScore_of_clean _ (by decide) (by decide)
  refine ⟨hch, ?_, ?_⟩
  · simp only [evaluateTranslationQuality]
    exact hch
  · simp only [evaluateTranslationQuality, calculateScriptConsistencyScore_unknown,
      calculateLanguageMatchScore_unknown, hch, hcw, hlh, hlw, heh, hew]

/-- C7 (amended) — The 0.3 identical-translation multiplier requires the
source length to be strictly greater than 5. For sourceText = candidate =
"Hello!" (length 6), the confidence sub-score is 0.3 and the overall score
is strictly lower than for the otherwise-equivalent non-identical candidate
"Howdy!"; for the claim's "Hello" (length 5) the multiplier is not applied
(see the counterexample). -/
theorem confidence_identical_long_source_penalized :
    calculateConfidenceScore "Hello!" "Hello!" = 0.3 ∧
    (evaluateTranslationQuality unknownLookup "Hello!" "Hello!" "en" "xx" 0.5).metrics.confidence = 0.3 ∧
    (evaluateTranslationQuality unknownLookup "Hello!" "Hello!" "en" "xx" 0.5).score <
      (evaluateTranslationQuality unknownLookup "Hello!" "Howdy!" "en" "xx" 0.5).score := by
  have hch : calculateConfidenceScore "Hello!" "Hello!" = 0.3 := by
    unfold calculateConfidenceScore
    rw [if_neg (show ¬(jsTrim "Hello!").length = 0 by decide)]
    dsimp only
    rw [if_pos (show ("Hello!" : String) = "Hello!" ∧ ("Hello!" : String).length > 5 by decide),
      if_neg (show ¬matchesErrorPattern "Hello!" = true by decide),
      if_neg (show ¬("Hello!" : String).length > 20 by decide)]
    norm_num
  have hcw : calculateConfidenceScore "Hello!" "Howdy!" = 1 := by
    unfold calculateConfidenceScore
    rw [if_neg (show ¬(jsTrim "Howdy!").length = 0 by decide)]
    dsimp only
    rw [if_neg (show ¬(("Howdy!" : String) = "Hello!" ∧ ("Hello!" : String).length > 5) by decide),
      if_neg (show ¬matchesErrorPattern "Howdy!" = true by decide),
      if_neg (show ¬("Howdy!" : String).length > 20 by decide)]
    norm_num
  have hlh : calculateLengthRatioScore "Hello!" "Hello!" "en" "xx" = 1 :=
    calculateLengthRatioScore_of_eq_length _ _ _ _ (by decide) (by decide)
  have hlw : calculateLengthRatioScore "Hello!" "Howdy!" "en" "xx" = 1 :=
    calculateLengthRatioScore_of_eq_length _ _ _ _ (by decide) (by decide)
  have heh : calculateEncodingScore "Hello!" = 1 :=
    calculateEncodingScore_of_clean _ (by decide) (by decide)
  have hew : calculateEncodingScore "Howdy!" = 1 :=
    calculateEncodingScore_of_clean _ (by decide) (by decide)
  refine ⟨hch, ?_, ?_⟩
  · simp only [evaluateTranslationQuality]
    exact hch
  · simp only [evaluateTranslationQuality, calculateScriptConsistencyScore_unknown,
      calculateLanguageMatchScore_unknown, hch, hcw, hlh, hlw, heh, hew]
    norm_num

/-! ## Degradation detection (C8, C10) -/

/-- C8 — For every state of the metrics store, `checkPerformanceDegradation`
reports `isDegrading = true` if and only if at least one threshold is
strictly exceeded: overall error rate `> 0.1`, or some provider's error
rate `> 0.2`, or some provider's average response time `> 10000` ms, or
overall cache-hit rate `< 0.3`.  The inequalities being strict, a statistic
exactly at a threshold does not by itself trigger degradation. -/
theorem checkPerformanceDegradation_iff_threshold_exceeded
    (metrics : List TranslationMetric) :
    (checkPerformanceDegradation metrics).1 = true ↔
      ((getStats metrics).errorRate > 0.1 ∨
        (∃ ps ∈ (getStats metrics).providerStats,
          ps.errorRate > 0.2 ∨ ps.averageResponseTime > 10000) ∨
        (getStats metrics).cacheHitRate < 0.3) := by
  unfold checkPerformanceDegradation
  dsimp only
  rw [decide_eq_true_eq, gt_iff_lt, List.length_pos]
  constructor
  · intro h
    by_contra hno
    apply h
    rw [List.append_eq_nil, List.append_eq_nil]
    refine ⟨⟨?_, ?_⟩, ?_⟩
    · exact if_neg (fun hgt => hno (Or.inl hgt))
    · rw [List.flatMap_eq_nil_iff]
      intro ps hps
      rw [List.append_eq_nil]
      exact ⟨if_neg (fun hgt => hno (Or.inr (Or.inl ⟨ps, hps, Or.inl hgt⟩))),
        if_neg (fun hgt => hno (Or.inr (Or.inl ⟨ps, hps, Or.inr hgt⟩)))⟩
    · exact if_neg (fun hlt => hno (Or.inr (Or.inr hlt)))
  · intro h hnil
    rw [List.append_eq_nil, List.append_eq_nil, List.flatMap_eq_nil_iff] at hnil
    obtain ⟨⟨hn1, hn2⟩, hn3⟩ := hnil
    rcases h with h | ⟨ps, hps, h⟩ | h
    · rw [if_pos h] at hn1
      exact List.cons_ne_nil _ _ hn1
    · have hps2 := hn2 ps hps
      rw [List.append_eq_nil] at hps2
      rcases h with h | h
      · rw [if_pos h] at hps2
        exact List.cons_ne_nil _ _ hps2.1
      · rw [if_pos h] at hps2
        exact List.cons_ne_nil _ _ hps2.2
    · rw [if_pos h] at hn3
      exact List.cons_ne_nil _ _ hn3

/-- C10 — When the metrics store contains zero recorded entries, `getStats`
reports `cacheHitRate = 0` (and zero error rate and zero translations), so
`checkPerformanceDegradation` returns `isDegrading = true` with exactly the
low-cache-hit-rate issue, even though nothing has ever failed or been
attempted. -/
theorem emptyMetricsStore_reports_degrading :
    (getStats []).cacheHitRate = 0 ∧
    (getStats []).errorRate = 0 ∧
    (getStats []).totalTranslations = 0 ∧
    (getStats []).providerStats = [] ∧
    (checkPerformanceDegradation []).1 = true ∧
    (checkPerformanceDegradation []).2 = ["Low cache hit rate"] := by
  have hstats : getStats [] =
      { totalTranslations := 0, cacheHits := 0, cacheMisses := 0, cacheHitRate := 0
        averageQualityScore := 0, providerStats := [], topLanguages := [], errorRate := 0 } := rfl
  have hcheck : checkPerformanceDegradation [] = (true, ["Low cache hit rate"]) := by
    unfold checkPerformanceDegradation
    rw [hstats]
    dsimp only
    rw [if_neg (by norm_num : ¬(0 : ℚ) > 0.1), if_pos (by norm_num : (0 : ℚ) < 0.3)]
    rfl
  exact ⟨by rw [hstats], by rw [hstats], by rw [hstats], by rw [hstats],
    by rw [hcheck], by rw [hcheck]⟩

/-! ## Provider success on malformed bodies (C9) -/

/-- C9 — For every concrete provider, an HTTP-success response whose body
lacks the expected translation fields (an empty JSON object, an empty-string
field, or an array whose first element has no `translation_text`) resolves
successfully with the original (sanitized) source text rather than raising
a malformed-response error: a "successful" provider result can be the
untranslated input. -/
theorem providers_return_source_on_missing_fields (text : String) (status : Nat) :
    libreTranslateHandleResponse true status none text = .ok text ∧
    libreTranslateHandleResponse true status (some "") text = .ok text ∧
    nllbHandleResponse true status (.jobject none) text = .ok text ∧
    nllbHandleResponse true status (.jarray [none]) text = .ok text ∧
    opusMtHandleResponse true status (.jobject none) text = .ok text ∧
    opusMtHandleResponse true status (.jarray [none]) text = .ok text ∧
    m2m100HandleResponse true status (.jobject none) text = .ok text ∧
    m2m100HandleResponse true status (.jarray [none]) text = .ok text := by
  refine ⟨rfl, ?_, rfl, ?_, rfl, ?_, rfl, ?_⟩ <;>
    simp [libreTranslateHandleResponse, nllbHandleResponse, opusMtHandleResponse,
      m2m100HandleResponse, jsOrElse]

/-! ## Sequential fallback of the orchestrator (C1) -/

/-- A failed call outcome: an empty non-throwing result or a thrown error. -/
def exceptFailed (x : Except String String) : Prop :=
  x = .ok "" ∨ ∃ m, x = .error m

/-- The error message collected from one outcome by the sequential loop. -/
def seqErrMsg : Except String String → Option String
  | .error m => some m
  | .ok _ => none

/-- If the sequential fallback returns a result, it is the first non-empty
result in the list, and every earlier outcome failed. -/
theorem seqFallback_ok (l : List (Except String String)) (errs0 : List String)
    (t : String) (h : seqFallback l errs0 = .ok t) :
    t ≠ "" ∧ ∃ pre post, l = pre ++ .ok t :: post ∧ ∀ x ∈ pre, exceptFailed x := by
  induction l generalizing errs0 with
  | nil => simp [seqFallback] at h
  | cons x rest ih =>
    cases x with
    | ok u =>
      by_cases hu : u = ""
      · rw [seqFallback, if_pos hu] at h
        obtain ⟨ht, pre, post, hdec, hfail⟩ := ih _ h
        refine ⟨ht, .ok u :: pre, post, by rw [hdec, List.cons_append], ?_⟩
        intro y hy
        rcases List.mem_cons.mp hy with hya | hyr
        · exact hya ▸ Or.inl (by rw [hu])
        · exact hfail y hyr
      · rw [seqFallback, if_neg hu] at h
        obtain rfl : u = t := by cases h; rfl
        exact ⟨hu, [], rest, rfl, by simp⟩
    | error m =>
      rw [seqFallback] at h
      obtain ⟨ht, pre, post, hdec, hfail⟩ := ih _ h
      refine ⟨ht, .error m :: pre, post, by rw [hdec, List.cons_append], ?_⟩
      intro y hy
      rcases List.mem_cons.mp hy with hya | hyr
      · exact hya ▸ Or.inr ⟨m, rfl⟩
      · exact hfail y hyr

/-- If the sequential fallback throws, every outcome failed, and the carried
error list is the initial accumulator followed by every thrown message in
order. -/
theorem seqFallback_error (l : List (Except String String)) (errs0 errs : List String)
    (h : seqFallback l errs0 = .error errs) :
    (∀ x ∈ l, exceptFailed x) ∧ errs = errs0 ++ l.filterMap seqErrMsg := by
  induction l generalizing errs0 with
  | nil =>
    rw [seqFallback] at h
    cases h
    exact ⟨by simp, by simp⟩
  | cons x rest ih =>
    cases x with
    | ok u =>
      by_cases hu : u = ""
      · rw [seqFallback, if_pos hu] at h
        obtain ⟨hall, herrs⟩ := ih _ h
        refine ⟨?_, ?_⟩
        · intro y hy
          rcases List.mem_cons.mp hy with hya | hyr
          · exact hya ▸ Or.inl (by rw [hu])
          · exact hall y hyr
        · rw [herrs]
          simp [seqErrMsg]
      · rw [seqFallback, if_neg hu] at h
        cases h
    | error m =>
      rw [seqFallback] at h
      obtain ⟨hall, herrs⟩ := ih _ h
      refine ⟨?_, ?_⟩
      · intro y hy
        rcases List.mem_cons.mp hy with hya | hyr
        · exact hya ▸ Or.inr ⟨m, rfl⟩
        · exact hall y hyr
      · rw [herrs]
        simp [seqErrMsg]

/-- Conversely, when every outcome fails the sequential fallback throws and
collects exactly the thrown messages. -/
theorem seqFallback_error_of_all_failed (l : List (Except String String))
    (errs0 : List String) (hall : ∀ x ∈ l, exceptFailed x) :
    seqFallback l errs0 = .error (errs0 ++ l.filterMap seqErrMsg) := by
  induction l generalizing errs0 with
  | nil => simp [seqFallback]
  | cons x rest ih =>
    cases x with
    | ok u =>
      have hu : u = "" := by
        rcases hall (.ok u) (List.mem_cons_self _ _) with h | ⟨m, hm⟩
        · cases h; rfl
        · cases hm
      rw [seqFallback, if_pos hu]
      rw [ih _ (fun y hy => hall y (List.mem_cons_of_mem _ hy))]
      simp [seqErrMsg]
    | error m =>
      rw [seqFallback]
      rw [ih _ (fun y hy => hall y (List.mem_cons_of_mem _ hy))]
      simp [seqErrMsg]

/-- Pull a decomposition of a mapped list back to the original list. -/
theorem map_eq_append_cons {α β : Type} (f : α → β) (l : List α)
    (pre : List β) (b : β) (post : List β) (h : l.map f = pre ++ b :: post) :
    ∃ pre' a post', l = pre' ++ a :: post' ∧ f a = b ∧ pre'.map f = pre := by
  induction pre generalizing l with
  | nil =>
    cases l with
    | nil => simp at h
    | cons a l' =>
      rw [List.map_cons, List.nil_append] at h
      obtain ⟨hb, -⟩ := List.cons.inj h
      exact ⟨[], a, l', rfl, hb, rfl⟩
  | cons p ps ih =>
    cases l with
    | nil => simp at h
    | cons a l' =>
      rw [List.map_cons, List.cons_append] at h
      obtain ⟨hp, hrest⟩ := List.cons.inj h
      obtain ⟨pre'', a', post'', hl, hfa, hmap⟩ := ih l' hrest
      exact ⟨a :: pre'', a', post'', by rw [hl, List.cons_append], hfa,
        by rw [List.map_cons, hmap, hp]⟩

/-- C1 — When zero providers succeed during the parallel racing phase,
`HybridTranslationService.translate` retries the same eligible provider
list sequentially: it returns the first successful non-empty result (every
earlier sequential attempt having failed), and if every sequential attempt
also fails it raises a single aggregate error whose collected error list —
rendered as `"Translation failed: <m1>; <m2>; ..."` by
`aggregateFailureMessage` — carries the message of every provider whose
sequential attempt threw. -/
theorem hybridTranslate_zero_success_sequential (lookup : LanguageLookup)
    (sanitizedText targetLang sourceLang : String)
    (attempts : List ProviderAttempt)
    (hrace : raceSuccesses attempts = []) :
    hybridTranslate lookup sanitizedText targetLang sourceLang attempts =
      seqFallback (attempts.map (·.seq)) [] ∧
    (∀ t, hybridTranslate lookup sanitizedText targetLang sourceLang attempts = .ok t →
      t ≠ "" ∧ ∃ pre a post, attempts = pre ++ a :: post ∧ a.seq = .ok t ∧
        ∀ b ∈ pre, exceptFailed b.seq) ∧
    ((∀ a ∈ attempts, exceptFailed a.seq) →
      hybridTranslate lookup sanitizedText targetLang sourceLang attempts =
        .error ((attempts.map (·.seq)).filterMap seqErrMsg)) ∧
    (∀ errs, hybridTranslate lookup sanitizedText targetLang sourceLang attempts = .error errs →
      (∀ a ∈ attempts, exceptFailed a.seq) ∧
      ∀ a ∈ attempts, ∀ m, a.seq = .error m → m ∈ errs) := by
  have hdef : hybridTranslate lookup sanitizedText targetLang sourceLang attempts =
      seqFallback (attempts.map (·.seq)) [] := by
    unfold hybridTranslate
    rw [hrace]
  refine ⟨hdef, ?_, ?_, ?_⟩
  · intro t ht
    rw [hdef] at ht
    obtain ⟨htne, pre, post, hdec, hfail⟩ := seqFallback_ok _ _ _ ht
    obtain ⟨pre', a, post', hl, hfa, hmap⟩ :=
      map_eq_append_cons (·.seq) attempts pre (.ok t) post hdec
    refine ⟨htne, pre', a, post', hl, hfa, ?_⟩
    intro b hb
    apply hfail
    rw [← hmap]
    exact List.mem_map_of_mem _ hb
  · intro hall
    rw [hdef]
    rw [seqFallback_error_of_all_failed _ [] ?_]
    · rw [List.nil_append]
    · intro x hx
      obtain ⟨a, ha, rfl⟩ := List.mem_map.mp hx
      exact hall a ha
  · intro errs herr
    rw [hdef] at herr
    obtain ⟨hall, herrs⟩ := seqFallback_error _ _ _ herr
    refine ⟨fun a ha => hall _ (List.mem_map_of_mem _ ha), ?_⟩
    intro a ha m hm
    rw [herrs, List.nil_append]
    exact List.mem_filterMap.mpr ⟨a.seq, List.mem_map_of_mem _ ha, by rw [hm]; rfl⟩

/-- Concrete attempts for the C1 witness: both providers fail the race
(one throws, one returns empty); sequentially the first throws again and
the second succeeds. -/
def c1Attempts : List ProviderAttempt :=
  [{ name := "LibreTranslate", race := .error "LibreTranslate API error: 500"
     seq := .error "LibreTranslate API error: 500" },
   { name := "NLLB (Hugging Face)", race := .ok "", seq := .ok "読み込み中" }]

theorem hybridTranslate_zero_success_sequential_witness :
    raceSuccesses c1Attempts = [] ∧
    (hybridTranslate unknownLookup "Loading..." "ja" "en" c1Attempts =
        seqFallback (c1Attempts.map (·.seq)) [] ∧
      (∀ t, hybridTranslate unknownLookup "Loading..." "ja" "en" c1Attempts = .ok t →
        t ≠ "" ∧ ∃ pre a post, c1Attempts = pre ++ a :: post ∧ a.seq = .ok t ∧
          ∀ b ∈ pre, exceptFailed b.seq) ∧
      ((∀ a ∈ c1Attempts, exceptFailed a.seq) →
        hybridTranslate unknownLookup "Loading..." "ja" "en" c1Attempts =
          .error ((c1Attempts.map (·.seq)).filterMap seqErrMsg)) ∧
      (∀ errs, hybridTranslate unknownLookup "Loading..." "ja" "en" c1Attempts = .error errs →
        (∀ a ∈ c1Attempts, exceptFailed a.seq) ∧
        ∀ a ∈ c1Attempts, ∀ m, a.seq = .error m → m ∈ errs)) :=
  ⟨by decide,
    hybridTranslate_zero_success_sequential unknownLookup "Loading..." "ja" "en"
      c1Attempts (by decide)⟩

/-! ## Cache tier lemmas (C3, C4) -/

theorem mapLookup_cons (a : String × CacheEntry) (rest : CacheStore) (key : String) :
    mapLookup (a :: rest) key = if a.1 = key then some a.2 else mapLookup rest key := by
  unfold mapLookup
  by_cases h : a.1 = key
  · rw [if_pos h, List.find?_cons_of_pos _ (by simpa using h)]
    rfl
  · rw [if_neg h, List.find?_cons_of_neg _ (by simpa using h)]

theorem mapLookup_mapSet_self (store : CacheStore) (key : String) (v : CacheEntry) :
    mapLookup (mapSet store key v) key = some v := by
  unfold mapSet
  split
  · rename_i hany
    induction store with
    | nil => simp at hany
    | cons a rest ih =>
      rw [List.map_cons, mapLookup_cons]
      by_cases hk : a.1 = key
      · simp [hk]
      · simp only [if_neg hk]
        apply ih
        simpa [List.any_cons, hk] using hany
  · rename_i hany
    rw [Bool.not_eq_true] at hany
    induction store with
    | nil =>
      rw [List.nil_append, mapLookup_cons]
      simp
    | cons a rest ih =>
      simp only [List.any_cons, Bool.or_eq_false_iff, decide_eq_false_iff_not] at hany
      rw [List.cons_append, mapLookup_cons, if_neg hany.1]
      exact ih hany.2

theorem mapLookup_mapErase_self (store : CacheStore) (key : String) :
    mapLookup (mapErase store key) key = none := by
  induction store with
  | nil => rfl
  | cons a rest ih =>
    unfold mapErase
    rw [List.filter_cons]
    by_cases hk : a.1 = key
    · rw [if_neg (by simp [hk])]
      exact ih
    · rw [if_pos (by simp [hk]), mapLookup_cons, if_neg hk]
      exact ih

/-- Insertion into the memory tier makes the key's entry retrievable,
whatever eviction did. -/
theorem mapLookup_inMemorySet_self (cache : CacheStore) (key : String) (v : CacheEntry) :
    mapLookup (inMemorySet cache key v) key = some v :=
  mapLookup_mapSet_self _ key v

/-- After writing both tiers, the tier-order lookup finds the freshly
written entry whenever it has not yet expired. -/
theorem tierLookup_after_set (c : TranslationCacheState) (key : String)
    (entry : CacheEntry) (now : ℚ)
    (httl : (now - entry.timestamp) / 1000 ≤ defaultCacheTtl) :
    tierLookup
        { c with kv := kvSet c.kv key entry, memory := inMemorySet c.memory key entry }
        key now =
      (some entry,
        { c with kv := kvSet c.kv key entry, memory := inMemorySet c.memory key entry }) := by
  unfold tierLookup kvGet kvSet
  cases hkv : c.kv with
  | none =>
    dsimp only [Option.map_none']
    unfold inMemoryGet
    rw [mapLookup_inMemorySet_self]
    dsimp only
    rw [if_neg (not_lt.mpr httl)]
  | some store =>
    dsimp only [Option.map_some']
    rw [mapLookup_mapSet_self]
    dsimp only
    rw [if_neg (not_lt.mpr httl)]

/-- C3 — After a first `getTranslations` call populates the cache for a
(text, "en", language) triple at time `t1` (the translation differing from
the source, as required by the write path, and being non-empty), a second
per-key consultation of the same triple at any time `t2` within the cache
TTL and under the same configured cache version is served from the cache —
the key does not join `uncachedKeys`, so no provider is invoked for it —
and returns exactly the string the first call cached. -/
theorem second_call_served_from_cache (c : TranslationCacheState)
    (sourceText language translatedText : String) (t1 t2 : ℚ)
    (hen : c.enabled = true)
    (hdiff : translatedText ≠ sourceText)
    (hne : translatedText ≠ "")
    (httl : (t2 - t1) / 1000 ≤ defaultCacheTtl) :
    (translationKeyLookup (translationKeyStore c sourceText language translatedText t1)
        sourceText language t2).1 = .cached translatedText := by
  unfold translationKeyStore
  rw [if_pos hdiff]
  unfold translationCacheSet
  rw [if_neg (show ¬((!c.enabled) = true) by rw [hen]; decide)]
  unfold translationKeyLookup translationCacheGet
  rw [if_neg (show ¬((!c.enabled) = true) by rw [hen]; decide)]
  dsimp only
  rw [tierLookup_after_set c (generateCacheKey sourceText "en" language)
    { text := translatedText, timestamp := t1, version := c.version
      provider := some "HybridTranslationService", qualityScore := none } t2 httl]
  dsimp only
  rw [if_neg (show ¬c.version ≠ c.version from fun h => h rfl)]
  dsimp only
  rw [if_neg hne]

/-- Witness state for the cache theorems: empty KV tier bound, empty memory
tier, version `1.0.0`, 30-day TTL, caching enabled. -/
def demoCache : TranslationCacheState :=
  { kv := some [], memory := [], version := "1.0.0", ttl := 2592000, enabled := true }

theorem second_call_served_from_cache_witness :
    demoCache.enabled = true ∧
    ("読み込み中" : String) ≠ "Loading..." ∧
    ("読み込み中" : String) ≠ "" ∧
    ((1000 : ℚ) - 0) / 1000 ≤ defaultCacheTtl ∧
    (translationKeyLookup (translationKeyStore demoCache "Loading..." "ja" "読み込み中" 0)
        "Loading..." "ja" 1000).1 = .cached "読み込み中" :=
  ⟨rfl, by decide, by decide, by norm_num [defaultCacheTtl],
    second_call_served_from_cache demoCache "Loading..." "ja" "読み込み中" 0 1000
      rfl (by decide) (by decide) (by norm_num [defaultCacheTtl])⟩

/-- C4 — For every cache read via `TranslationCache.get`: when the entry
the tier-order lookup finds (KV tier first, then memory) carries a version
string different from the configured cache version, the read returns `none`
exactly as on a miss, and the stale entry is deleted from both tiers before
returning. -/
theorem version_mismatch_reads_as_miss_and_deletes (c : TranslationCacheState)
    (sourceText sourceLang targetLang : String) (now : ℚ) (e : CacheEntry)
    (hen : c.enabled = true)
    (hfound : (tierLookup c (generateCacheKey sourceText sourceLang targetLang) now).1 = some e)
    (hver : e.version ≠ c.version) :
    (translationCacheGet c sourceText sourceLang targetLang now).1 = none ∧
    mapLookup (translationCacheGet c sourceText sourceLang targetLang now).2.memory
      (generateCacheKey sourceText sourceLang targetLang) = none ∧
    (∀ store, (translationCacheGet c sourceText sourceLang targetLang now).2.kv = some store →
      mapLookup store (generateCacheKey sourceText sourceLang targetLang) = none) := by
  unfold translationCacheGet
  rw [if_neg (show ¬((!c.enabled) = true) by rw [hen]; decide)]
  dsimp only
  rcases hr : tierLookup c (generateCacheKey sourceText sourceLang targetLang) now
    with ⟨entry, c₁⟩
  rw [hr] at hfound
  dsimp only at hfound
  subst hfound
  dsimp only
  rw [if_pos hver]
  dsimp only
  unfold translationCacheDelete
  refine ⟨rfl, ?_, ?_⟩
  · exact mapLookup_mapErase_self _ _
  · intro store hstore
    dsimp only at hstore
    cases hkv : c₁.kv with
    | none => rw [hkv] at hstore; cases hstore
    | some s =>
      rw [hkv] at hstore
      dsimp only [kvDelete, Option.map_some'] at hstore
      cases hstore
      exact mapLookup_mapErase_self _ _

/-- Witness state for C4: the memory tier holds an entry stamped with the
outdated version `0.9.9` while the configured version is `1.0.0`. -/
def demoStaleEntry : CacheEntry :=
  { text := "привет", timestamp := 0, version := "0.9.9", provider := none
    qualityScore := none }

def demoStaleCache : TranslationCacheState :=
  { kv := some []
    memory := [(generateCacheKey "Hello" "en" "ru", demoStaleEntry)]
    version := "1.0.0", ttl := 2592000, enabled := true }

theorem version_mismatch_reads_as_miss_and_deletes_witness :
    demoStaleCache.enabled = true ∧
    (tierLookup demoStaleCache (generateCacheKey "Hello" "en" "ru") 500).1 =
      some demoStaleEntry ∧
    demoStaleEntry.version ≠ demoStaleCache.version ∧
    ((translationCacheGet demoStaleCache "Hello" "en" "ru" 500).1 = none ∧
      mapLookup (translationCacheGet demoStaleCache "Hello" "en" "ru" 500).2.memory
        (generateCacheKey "Hello" "en" "ru") = none ∧
      (∀ store, (translationCacheGet demoStaleCache "Hello" "en" "ru" 500).2.kv = some store →
        mapLookup store (generateCacheKey "Hello" "en" "ru") = none)) := by
  have hmap0 : mapLookup ([] : CacheStore) (generateCacheKey "Hello" "en" "ru") = none := rfl
  have hmap1 : mapLookup [(generateCacheKey "Hello" "en" "ru", demoStaleEntry)]
      (generateCacheKey "Hello" "en" "ru") = some demoStaleEntry := by
    rw [mapLookup_cons, if_pos rfl]
  have hfound : (tierLookup demoStaleCache (generateCacheKey "Hello" "en" "ru") 500).1 =
      some demoStaleEntry := by
    unfold tierLookup kvGet demoStaleCache
    dsimp only
    rw [hmap0]
    dsimp only
    unfold inMemoryGet
    rw [hmap1]
    dsimp only
    rw [if_neg (show ¬(500 - demoStaleEntry.timestamp) / 1000 > defaultCacheTtl by
      norm_num [demoStaleEntry, defaultCacheTtl])]
  exact ⟨rfl, hfound, by decide,
    version_mismatch_reads_as_miss_and_deletes demoStaleCache "Hello" "en" "ru" 500
      demoStaleEntry rfl hfound (by decide)⟩

end Warmthly
